import Mathlib

/-!
# Verification of the `bookmark` command (bwasd/bookmark)

A shallow embedding of the two-file Go program: the retrying page fetcher
`savePage`, the flat-file bookmark store (`readBookmarkDB`, `list`, `add`)
and the CLI dispatch in `main`.  Machine-level effects (HTTP, the clock,
the file system) are modelled as explicit inputs and event traces.
-/

/-! ## strconv.Atoi (as used by the Retry-After handling)

Go's `strconv.Atoi` returns the parsed value for an optionally signed
decimal string, and `0` together with an error for anything else; the
program discards the error, so only the returned integer matters. -/

def digitsValAux : Nat → List Char → Option Nat
  | acc, [] => some acc
  | acc, c :: cs =>
    if c.isDigit then digitsValAux (acc * 10 + (c.toNat - 48)) cs else none

def goAtoi (s : String) : Int :=
  match s.data with
  | [] => 0
  | '+' :: ds => if ds = [] then 0 else (((digitsValAux 0 ds).getD 0 : Nat) : Int)
  | '-' :: ds => if ds = [] then 0 else -(((digitsValAux 0 ds).getD 0 : Nat) : Int)
  | ds => (((digitsValAux 0 ds).getD 0 : Nat) : Int)

/-! ## The HTTP world seen by `savePage`

One loop iteration of `savePage` observes: request construction, the
transport, the body read, and on success a response consisting of a status
code, the `Retry-After` header value (`""` when absent, as returned by
`Header.Get`) and the result of `resp.Location()` (the redirect target
resolved to an absolute URL, or `none` when resolution fails). -/

structure Response where
  statusCode : Nat
  retryAfter : String
  location : Option String
deriving DecidableEq, Repr

inductive Attempt where
  | newReqErr
  | doErr
  | bodyErr
  | resp (r : Response)
deriving DecidableEq, Repr

/-- Externally visible actions of the fetch loop: an HTTP GET issued to a
URL, and a sleep ending at the given Unix time (`time.Sleep(t.Sub(now) +
1*time.Minute)` with `t = time.Unix(n, 0)` wakes at `n + 60`). -/
inductive Event where
  | attempt (url : String)
  | sleepUntil (wake : Int)
deriving DecidableEq, Repr

/-- Outcome of `savePage`: `nil` return, an `error` return, or process
termination through `log.Fatal` inside the loop. -/
inductive SaveResult where
  | success
  | error (msg : String)
  | fatal (msg : String)
deriving DecidableEq, Repr

def maxRetry : Nat := 3

/-- The guard of the final branch of the loop body, `resp.StatusCode/500 == 5`
(integer division). -/
def is5xxBranch (status : Nat) : Bool := status / 500 == 5

/-- One iteration of the body of the `for retry < maxRetry` loop of
`savePage`.  `Sum.inl (res, evs)` means the iteration left the loop with
result `res` (a `return` or `log.Fatal`); `Sum.inr (u2, evs)` means the
iteration ended in `retry++; continue`, with `u2` the (possibly
redirect-updated) request URL for the next iteration.  `evs` are the
events of this iteration. -/
def savePageStep (retry : Nat) (urlstr : String) (a : Attempt) :
    (SaveResult × List Event) ⊕ (String × List Event) :=
  match a with
  | .newReqErr => .inl (.error ("creating request: " ++ urlstr), [])
  | .doErr => .inl (.error ("fetching: " ++ urlstr), [.attempt urlstr])
  | .bodyErr => .inl (.error "reading response body", [.attempt urlstr])
  | .resp r =>
    if 400 ≤ r.statusCode ∧ r.statusCode = 404 then
      .inl (.error ("resource not found: " ++ urlstr), [.attempt urlstr])
    else if 400 ≤ r.statusCode ∧ (r.statusCode = 429 ∨ r.statusCode = 503) ∧
        0 < goAtoi r.retryAfter then
      .inr (urlstr, [.attempt urlstr, .sleepUntil (goAtoi r.retryAfter + 60)])
    else
      match (if r.statusCode / 100 = 3 then
               match r.location with
               | none => Except.error ("resolving redirect: " ++ urlstr)
               | some nurl => Except.ok nurl
             else Except.ok urlstr : Except String String) with
      | .error msg => .inl (.error msg, [.attempt urlstr])
      | .ok u2 =>
        if is5xxBranch r.statusCode then
          if retry = maxRetry then .inl (.fatal "max retries exceeded", [.attempt urlstr])
          else .inr (u2, [.attempt urlstr])
        else .inl (.success, [.attempt urlstr])

/-- The `for retry < maxRetry` loop.  `fuel` is a structural termination
measure; every `continue` in the body increments `retry`, so `fuel =
maxRetry - retry` suffices and the `fuel = 0` case coincides with the
loop condition being false.  `idx` numbers the attempts so that
`responses` can supply a different outcome per attempt. -/
def savePageAux (responses : Nat → Attempt) :
    Nat → Nat → Nat → String → List Event → SaveResult × List Event
  | 0, _, _, _, evs => (.success, evs)
  | fuel + 1, retry, idx, urlstr, evs =>
    if retry < maxRetry then
      match savePageStep retry urlstr (responses idx) with
      | .inl (res, here) => (res, evs ++ here)
      | .inr (u2, here) => savePageAux responses fuel (retry + 1) (idx + 1) u2 (evs ++ here)
    else (.success, evs)

/-- `savePage(urlstr)`: run the loop from `retry = 0`. -/
def savePage (responses : Nat → Attempt) (urlstr : String) : SaveResult × List Event :=
  savePageAux responses maxRetry 0 0 urlstr []

/-! ## The bookmark store -/

/-- `bytes.SplitAfter(data, []byte("\n"))`: split after every newline,
keeping the separator with the preceding piece. -/
def splitAfterNL : List Char → List (List Char)
  | [] => [[]]
  | c :: cs =>
    if c = '\n' then [c] :: splitAfterNL cs
    else
      match splitAfterNL cs with
      | [] => [[c]]
      | y :: ys => (c :: y) :: ys

/-- `bytes.TrimSuffix(line, []byte("\n"))`: drop one trailing newline. -/
def trimNL : List Char → List Char
  | [] => []
  | [c] => if c = '\n' then [] else [c]
  | c :: c2 :: rest => c :: trimNL (c2 :: rest)

/-- Keys inserted into `b.bookmarks` by `readBookmarkDB`, in file order:
each piece of `SplitAfter`, newline-trimmed, skipping empty pieces. -/
def lineKeysL (data : List Char) : List (List Char) :=
  ((splitAfterNL data).map trimNL).filter (fun l => l ≠ [])

def lineKeys (data : String) : List String :=
  (lineKeysL data.data).map (fun l => ⟨l⟩)

/-- The key set of the map built by `readBookmarkDB`; a `none` file is a
missing backing file (`os.IsNotExist`), which yields the empty store.
`dedup` reflects that assigning an existing map key leaves one entry. -/
def storeKeys (file : Option String) : List String :=
  match file with
  | none => []
  | some data => (lineKeys data).dedup

/-- `list()`: the map keys sorted by `sort.Strings` (lexicographic,
byte-wise ascending — which on UTF-8 text agrees with the character-wise
order used here), one printed per line. -/
def listOutput (file : Option String) : List String :=
  (storeKeys file).mergeSort (fun a b => decide (a ≤ b))

/-! ## `add` and the CLI -/

inductive AddResult where
  | fatalParse (urlstr : String)
  | fatalDup (urlstr : String)
  | fatalFetch (msg : String)
  | fatalInFetch (msg : String)
  | added (urlstr : String)
deriving DecidableEq, Repr

/-- One `add(urlstr)` invocation against a loaded store.  `parse` models
`url.Parse` followed by `u.String()` (`none` on parse failure); the
returned triple is the `add` outcome, the backing file afterwards
(`O_CREATE|O_APPEND` turns a missing file into its content followed by
`urlstr + "\n"`), and the fetch events that occurred. -/
def addInvocation (parse : String → Option String) (responses : Nat → Attempt)
    (file : Option String) (urlstr : String) : AddResult × Option String × List Event :=
  match parse urlstr with
  | none => (.fatalParse urlstr, file, [])
  | some norm =>
    if norm ∈ storeKeys file then (.fatalDup norm, file, [])
    else
      match savePage responses norm with
      | (.fatal msg, evs) => (.fatalInFetch msg, file, evs)
      | (.error msg, evs) => (.fatalFetch msg, file, evs)
      | (.success, evs) => (.added norm, some ((file.getD "") ++ norm ++ "\n"), evs)

/-- What `main` does after `flag.Parse`, as a function of the parsed
`-list` flag and the positional arguments.  `flag.Arg(0)` is `""` when
there is no positional argument. -/
inductive Mode where
  | listMode
  | usageExit2
  | addMode (url : String)
deriving DecidableEq, Repr

def mainDispatch (flagList : Bool) (args : List String) : Mode :=
  if flagList then
    if args.length > 0 then .usageExit2 else .listMode
  else if args.length > 1 then .usageExit2
  else .addMode (args.headD "")

/-- A run of `N` separate process invocations `bookmark <url>`: each loads
the store from the current backing file, performs `add`, and exits.
`none` when some invocation did not reach the append. -/
def runAdds (parse : String → Option String) (responses : Nat → Attempt) :
    Option String → List String → Option (Option String)
  | file, [] => some file
  | file, u :: us =>
    match addInvocation parse responses file u with
    | (.added _, f, _) => runAdds parse responses f us
    | _ => none

/-- An HTTP world in which every attempt yields a bare `200 OK`. -/
def ok200 : Nat → Attempt := fun _ => .resp ⟨200, "", none⟩

/-! ## Auxiliary observation functions and comparison programs -/

/-- The events of a loop iteration, whichever way it ended. -/
def stepEvents : (SaveResult × List Event) ⊕ (String × List Event) → List Event
  | .inl (_, e) => e
  | .inr (_, e) => e

def isAttempt : Event → Bool
  | .attempt _ => true
  | .sleepUntil _ => false

/-- Number of HTTP requests recorded in an event trace. -/
def attemptsOf (evs : List Event) : Nat := (evs.filter isAttempt).length

/-- The loop body of `savePage` with the `resp.StatusCode/500 == 5` block
deleted: after the redirect handling the iteration always reaches `break`.
Used to state that the 5xx block is dead code on real status codes. -/
def savePageStepNo5xx (urlstr : String) (a : Attempt) :
    (SaveResult × List Event) ⊕ (String × List Event) :=
  match a with
  | .newReqErr => .inl (.error ("creating request: " ++ urlstr), [])
  | .doErr => .inl (.error ("fetching: " ++ urlstr), [.attempt urlstr])
  | .bodyErr => .inl (.error "reading response body", [.attempt urlstr])
  | .resp r =>
    if 400 ≤ r.statusCode ∧ r.statusCode = 404 then
      .inl (.error ("resource not found: " ++ urlstr), [.attempt urlstr])
    else if 400 ≤ r.statusCode ∧ (r.statusCode = 429 ∨ r.statusCode = 503) ∧
        0 < goAtoi r.retryAfter then
      .inr (urlstr, [.attempt urlstr, .sleepUntil (goAtoi r.retryAfter + 60)])
    else
      match (if r.statusCode / 100 = 3 then
               match r.location with
               | none => Except.error ("resolving redirect: " ++ urlstr)
               | some nurl => Except.ok nurl
             else Except.ok urlstr : Except String String) with
      | .error msg => .inl (.error msg, [.attempt urlstr])
      | .ok _ => .inl (.success, [.attempt urlstr])

def savePageAuxNo5xx (responses : Nat → Attempt) :
    Nat → Nat → Nat → String → List Event → SaveResult × List Event
  | 0, _, _, _, evs => (.success, evs)
  | fuel + 1, retry, idx, urlstr, evs =>
    if retry < maxRetry then
      match savePageStepNo5xx urlstr (responses idx) with
      | .inl (res, here) => (res, evs ++ here)
      | .inr (u2, here) => savePageAuxNo5xx responses fuel (retry + 1) (idx + 1) u2 (evs ++ here)
    else (.success, evs)

def savePageNo5xx (responses : Nat → Attempt) (urlstr : String) : SaveResult × List Event :=
  savePageAuxNo5xx responses maxRetry 0 0 urlstr []

/-! ## Spec-side definitions

These follow the specification's words, to be compared with the
definitions above that follow the code. -/

/-- Standard newline splitting, separators dropped: the "lines" of the
specification's "each non-empty trimmed line becomes one entry". -/
def splitOnNL : List Char → List (List Char)
  | [] => [[]]
  | c :: cs =>
    if c = '\n' then [] :: splitOnNL cs
    else
      match splitOnNL cs with
      | [] => [[c]]
      | y :: ys => (c :: y) :: ys

/-- The non-empty lines of a file, in order. -/
def specLines (d : String) : List String :=
  ((splitOnNL d.data).filter (fun l => l ≠ [])).map (fun l => ⟨l⟩)

/-- The backing file produced by appending each URL followed by a newline. -/
def joinNL : List String → String
  | [] => ""
  | u :: us => u ++ "\n" ++ joinNL us

/-! ## Lemmas about the fetch loop -/

theorem savePageAux_zero (responses : Nat → Attempt) (retry idx : Nat) (u : String)
    (evs : List Event) : savePageAux responses 0 retry idx u evs = (.success, evs) := rfl

theorem savePageAux_succ (responses : Nat → Attempt) (fuel retry idx : Nat) (u : String)
    (evs : List Event) :
    savePageAux responses (fuel + 1) retry idx u evs =
      if retry < maxRetry then
        match savePageStep retry u (responses idx) with
        | .inl (res, here) => (res, evs ++ here)
        | .inr (u2, here) => savePageAux responses fuel (retry + 1) (idx + 1) u2 (evs ++ here)
      else (.success, evs) := rfl

/-- The first loop iteration determines the run: either it ends the loop,
or the loop goes on with one retry consumed. -/
theorem savePage_eq (responses : Nat → Attempt) (u : String) :
    savePage responses u =
      match savePageStep 0 u (responses 0) with
      | .inl (res, here) => (res, here)
      | .inr (u2, here) => savePageAux responses 2 1 1 u2 here := by
  show savePageAux responses (2 + 1) 0 0 u [] = _
  rw [savePageAux_succ, if_pos (by decide : (0 : Nat) < maxRetry)]
  cases hs : savePageStep 0 u (responses 0) with
  | inl p => cases p with | mk res here => simp
  | inr p => cases p with | mk u2 here => simp

theorem savePageStep_404 (retry : Nat) (u : String) (r : Response)
    (h : r.statusCode = 404) :
    savePageStep retry u (.resp r) =
      .inl (.error ("resource not found: " ++ u), [.attempt u]) := by
  simp [savePageStep, h]

theorem savePageStep_backoff (retry : Nat) (u : String) (r : Response)
    (h : r.statusCode = 429 ∨ r.statusCode = 503) (hn : 0 < goAtoi r.retryAfter) :
    savePageStep retry u (.resp r) =
      .inr (u, [.attempt u, .sleepUntil (goAtoi r.retryAfter + 60)]) := by
  rcases h with h | h <;> simp [savePageStep, h, hn]

theorem savePageStep_backoff_noheader (retry : Nat) (u : String) (r : Response)
    (h : r.statusCode = 429 ∨ r.statusCode = 503) (hn : goAtoi r.retryAfter ≤ 0) :
    savePageStep retry u (.resp r) = .inl (.success, [.attempt u]) := by
  rcases h with h | h <;>
    simp [savePageStep, h, Int.not_lt.mpr hn, is5xxBranch]

theorem savePageStep_redirect (retry : Nat) (u : String) (r : Response)
    (h3 : r.statusCode / 100 = 3) (nurl : String) (hl : r.location = some nurl) :
    savePageStep retry u (.resp r) = .inl (.success, [.attempt u]) := by
  have h400 : ¬ 400 ≤ r.statusCode := by omega
  have h5 : is5xxBranch r.statusCode = false := by
    simp only [is5xxBranch, beq_eq_false_iff_ne, ne_eq]
    omega
  simp [savePageStep, h400, h3, hl, h5]

theorem savePageStep_redirect_err (retry : Nat) (u : String) (r : Response)
    (h3 : r.statusCode / 100 = 3) (hl : r.location = none) :
    savePageStep retry u (.resp r) =
      .inl (.error ("resolving redirect: " ++ u), [.attempt u]) := by
  have h400 : ¬ 400 ≤ r.statusCode := by omega
  simp [savePageStep, h400, h3, hl]

/-- Any status outside the four explicitly handled shapes makes the loop
break and `savePage` report success. -/
theorem savePageStep_plain (retry : Nat) (u : String) (r : Response)
    (h404 : r.statusCode ≠ 404) (h429 : r.statusCode ≠ 429) (h503 : r.statusCode ≠ 503)
    (h3 : r.statusCode / 100 ≠ 3) (h5 : is5xxBranch r.statusCode = false) :
    savePageStep retry u (.resp r) = .inl (.success, [.attempt u]) := by
  simp [savePageStep, h404, h429, h503, h3, h5]

/-- The `log.Fatal("max retries exceeded")` call is guarded by
`retry == maxRetry`, so a loop body entered with `retry ≠ maxRetry`
cannot reach it. -/
theorem savePageStep_ne_fatal (retry : Nat) (u : String) (a : Attempt)
    (h : retry ≠ maxRetry) (msg : String) (evs : List Event) :
    savePageStep retry u a ≠ .inl (.fatal msg, evs) := by
  cases a with
  | newReqErr => simp [savePageStep]
  | doErr => simp [savePageStep]
  | bodyErr => simp [savePageStep]
  | resp r =>
    simp only [savePageStep, if_neg h]
    split
    · simp
    · split
      · simp
      · split
        · simp
        · split
          · simp
          · simp

/-- The loop never terminates the process: since the loop condition is
`retry < maxRetry`, the `retry == maxRetry` guard in front of the fatal
exit never holds. -/
theorem savePageAux_ne_fatal (responses : Nat → Attempt) (fuel : Nat) :
    ∀ (retry idx : Nat) (u : String) (evs : List Event) (msg : String),
      (savePageAux responses fuel retry idx u evs).1 ≠ .fatal msg := by
  induction fuel with
  | zero => intro retry idx u evs msg; simp [savePageAux_zero]
  | succ fuel ih =>
    intro retry idx u evs msg
    rw [savePageAux_succ]
    by_cases hr : retry < maxRetry
    · rw [if_pos hr]
      cases hs : savePageStep retry u (responses idx) with
      | inl p =>
        cases p with
        | mk res here =>
          have hne := savePageStep_ne_fatal retry u (responses idx) (Nat.ne_of_lt hr) msg here
          rw [hs] at hne
          intro hres
          exact hne (by simp_all)
      | inr p => cases p with | mk u2 here => exact ih (retry + 1) (idx + 1) u2 (evs ++ here) msg
    · rw [if_neg hr]; simp

theorem attemptsOf_append (a b : List Event) :
    attemptsOf (a ++ b) = attemptsOf a + attemptsOf b := by
  simp [attemptsOf, List.filter_append]

/-- One loop iteration issues at most one HTTP request. -/
theorem savePageStep_attempts (retry : Nat) (u : String) (a : Attempt) :
    attemptsOf (stepEvents (savePageStep retry u a)) ≤ 1 := by
  cases a with
  | newReqErr => simp [savePageStep, stepEvents, attemptsOf]
  | doErr => simp [savePageStep, stepEvents, attemptsOf, isAttempt]
  | bodyErr => simp [savePageStep, stepEvents, attemptsOf, isAttempt]
  | resp r =>
    simp only [savePageStep]
    split
    · simp [stepEvents, attemptsOf, isAttempt]
    · split
      · simp [stepEvents, attemptsOf, isAttempt, List.filter]
      · split
        · simp [stepEvents, attemptsOf, isAttempt]
        · split
          · split
            · simp [stepEvents, attemptsOf, isAttempt]
            · simp [stepEvents, attemptsOf, isAttempt]
          · simp [stepEvents, attemptsOf, isAttempt]

theorem savePageAux_attempts (responses : Nat → Attempt) (fuel : Nat) :
    ∀ (retry idx : Nat) (u : String) (evs : List Event),
      attemptsOf (savePageAux responses fuel retry idx u evs).2 ≤ attemptsOf evs + fuel := by
  induction fuel with
  | zero => intro retry idx u evs; simp [savePageAux_zero]
  | succ fuel ih =>
    intro retry idx u evs
    rw [savePageAux_succ]
    by_cases hr : retry < maxRetry
    · rw [if_pos hr]
      cases hs : savePageStep retry u (responses idx) with
      | inl p =>
        cases p with
        | mk res here =>
          have hle := savePageStep_attempts retry u (responses idx)
          rw [hs] at hle
          simp only [stepEvents] at hle
          simp only [attemptsOf_append]
          omega
      | inr p =>
        cases p with
        | mk u2 here =>
          have hle := savePageStep_attempts retry u (responses idx)
          rw [hs] at hle
          simp only [stepEvents] at hle
          have hih := ih (retry + 1) (idx + 1) u2 (evs ++ here)
          rw [attemptsOf_append] at hih
          show attemptsOf (savePageAux responses fuel (retry + 1) (idx + 1) u2 (evs ++ here)).2 ≤
            attemptsOf evs + (fuel + 1)
          omega
    · rw [if_neg hr]; simp

/-- With status codes in the real HTTP range the two loop bodies (with and
without the `statusCode/500 == 5` block) agree. -/
theorem savePageStep_eq_no5xx (retry : Nat) (u : String) (a : Attempt)
    (hs : ∀ r, a = .resp r → 100 ≤ r.statusCode ∧ r.statusCode ≤ 599) :
    savePageStep retry u a = savePageStepNo5xx u a := by
  cases a with
  | newReqErr => rfl
  | doErr => rfl
  | bodyErr => rfl
  | resp r =>
    have hb := hs r rfl
    have h5 : is5xxBranch r.statusCode = false := by
      simp only [is5xxBranch, beq_eq_false_iff_ne, ne_eq]
      omega
    simp only [savePageStep, savePageStepNo5xx, h5]
    split
    · rfl
    · split
      · rfl
      · split
        · rfl
        · simp

theorem savePageAuxNo5xx_succ (responses : Nat → Attempt) (fuel retry idx : Nat) (u : String)
    (evs : List Event) :
    savePageAuxNo5xx responses (fuel + 1) retry idx u evs =
      if retry < maxRetry then
        match savePageStepNo5xx u (responses idx) with
        | .inl (res, here) => (res, evs ++ here)
        | .inr (u2, here) => savePageAuxNo5xx responses fuel (retry + 1) (idx + 1) u2 (evs ++ here)
      else (.success, evs) := rfl

theorem savePageAux_eq_no5xx (responses : Nat → Attempt)
    (hreal : ∀ i r, responses i = .resp r → 100 ≤ r.statusCode ∧ r.statusCode ≤ 599)
    (fuel : Nat) :
    ∀ (retry idx : Nat) (u : String) (evs : List Event),
      savePageAux responses fuel retry idx u evs =
        savePageAuxNo5xx responses fuel retry idx u evs := by
  induction fuel with
  | zero => intro retry idx u evs; rfl
  | succ fuel ih =>
    intro retry idx u evs
    rw [savePageAux_succ, savePageAuxNo5xx_succ]
    by_cases hr : retry < maxRetry
    · rw [if_pos hr, if_pos hr,
        savePageStep_eq_no5xx retry u (responses idx) (fun r h => hreal idx r h)]
      cases hsp : savePageStepNo5xx u (responses idx) with
      | inl p => rfl
      | inr p => cases p with | mk u2 here => exact ih (retry + 1) (idx + 1) u2 (evs ++ here)
    · rw [if_neg hr, if_neg hr]

/-! ## Lemmas about the store -/

theorem splitAfterNL_ne_nil (l : List Char) : splitAfterNL l ≠ [] := by
  cases l with
  | nil => simp [splitAfterNL]
  | cons c cs =>
    simp only [splitAfterNL]
    split
    · simp
    · split <;> simp

theorem splitAfterNL_append (u rest : List Char) (h : '\n' ∉ u) :
    splitAfterNL (u ++ '\n' :: rest) = (u ++ ['\n']) :: splitAfterNL rest := by
  induction u with
  | nil => simp [splitAfterNL]
  | cons c u ih =>
    have hc : c ≠ '\n' := fun he => h (he ▸ List.mem_cons_self c u)
    have hih := ih (fun hm => h (List.mem_cons_of_mem c hm))
    simp only [List.cons_append, splitAfterNL, if_neg hc]
    rw [show u.append ('\n' :: rest) = u ++ '\n' :: rest from rfl, hih]

theorem trimNL_append_newline (u : List Char) : trimNL (u ++ ['\n']) = u := by
  induction u with
  | nil => simp [trimNL]
  | cons c u ih =>
    cases u with
    | nil => simp [trimNL]
    | cons a u2 =>
      show c :: trimNL (a :: u2 ++ ['\n']) = c :: a :: u2
      rw [show a :: u2 ++ ['\n'] = (a :: u2) ++ ['\n'] from rfl, ih]

theorem trimNL_cons (c : Char) (y : List Char) (hc : c ≠ '\n') :
    trimNL (c :: y) = c :: trimNL y := by
  cases y with
  | nil => simp [trimNL, hc]
  | cons a u2 => rfl

theorem map_trimNL_splitAfterNL (l : List Char) :
    (splitAfterNL l).map trimNL = splitOnNL l := by
  induction l with
  | nil => simp [splitAfterNL, splitOnNL, trimNL]
  | cons c cs ih =>
    by_cases hc : c = '\n'
    · subst hc
      simp [splitAfterNL, splitOnNL, trimNL, ih]
    · rcases hsa : splitAfterNL cs with _ | ⟨y, ys⟩
      · exact absurd hsa (splitAfterNL_ne_nil cs)
      · rw [hsa] at ih
        simp only [splitAfterNL, splitOnNL, if_neg hc, hsa, ← ih, List.map_cons,
          trimNL_cons c y hc]

/-- The key list `readBookmarkDB` computes is the specification's list of
non-empty lines. -/
theorem lineKeys_eq_specLines (d : String) : lineKeys d = specLines d := by
  simp [lineKeys, lineKeysL, specLines, map_trimNL_splitAfterNL]

theorem lineKeysL_nil : lineKeysL [] = [] := rfl

theorem lineKeysL_cons (u rest : List Char) (hne : u ≠ []) (hnl : '\n' ∉ u) :
    lineKeysL (u ++ '\n' :: rest) = u :: lineKeysL rest := by
  simp only [lineKeysL, splitAfterNL_append u rest hnl, List.map_cons,
    trimNL_append_newline, List.filter_cons]
  simp [hne]

theorem data_ne_nil_of_ne_empty (u : String) (h : u ≠ "") : u.data ≠ [] := by
  intro hd
  exact h (String.ext hd)

theorem joinNL_data (u : String) (us : List String) :
    (joinNL (u :: us)).data = u.data ++ '\n' :: (joinNL us).data := by
  show (u ++ "\n" ++ joinNL us).data = _
  simp

theorem lineKeys_joinNL (urls : List String)
    (h : ∀ u ∈ urls, u ≠ "" ∧ '\n' ∉ u.data) :
    lineKeys (joinNL urls) = urls := by
  induction urls with
  | nil => rfl
  | cons u us ih =>
    obtain ⟨hne, hnl⟩ := h u (List.mem_cons_self u us)
    have hih := ih (fun v hv => h v (List.mem_cons_of_mem u hv))
    simp only [lineKeys] at hih ⊢
    rw [joinNL_data, lineKeysL_cons u.data (joinNL us).data (data_ne_nil_of_ne_empty u hne) hnl,
      List.map_cons, hih]

theorem joinNL_append (done : List String) (u : String) :
    joinNL (done ++ [u]) = joinNL done ++ u ++ "\n" := by
  induction done with
  | nil => apply String.ext; simp [joinNL]
  | cons d ds ih =>
    apply String.ext
    show (d ++ "\n" ++ joinNL (ds ++ [u])).data = _
    rw [ih, show joinNL (d :: ds) = d ++ "\n" ++ joinNL ds from rfl]
    simp

theorem savePage_ok200 (u : String) : savePage ok200 u = (.success, [.attempt u]) := rfl

theorem addInvocation_added (parse : String → Option String) (responses : Nat → Attempt)
    (file : Option String) (u norm : String) (evs : List Event)
    (hp : parse u = some norm) (hmem : norm ∉ storeKeys file)
    (hsv : savePage responses norm = (.success, evs)) :
    addInvocation parse responses file u =
      (.added norm, some ((file.getD "") ++ norm ++ "\n"), evs) := by
  simp [addInvocation, hp, hmem, hsv]

theorem runAdds_ok (parse : String → Option String) (urls : List String) :
    ∀ done : List String,
      (done ++ urls).Nodup →
      (∀ u ∈ done ++ urls, u ≠ "" ∧ '\n' ∉ u.data) →
      (∀ u ∈ urls, parse u = some u) →
      runAdds parse ok200 (some (joinNL done)) urls = some (some (joinNL (done ++ urls))) := by
  induction urls with
  | nil => intro done hnd hprops hp; simp [runAdds]
  | cons u us ih =>
    intro done hnd hprops hp
    have hpu : parse u = some u := hp u (by simp)
    have hdisj : List.Disjoint done (u :: us) := (List.nodup_append.mp hnd).2.2
    have hmem : u ∉ storeKeys (some (joinNL done)) := by
      have hkeys : lineKeys (joinNL done) = done :=
        lineKeys_joinNL done (fun v hv => hprops v (by simp [hv]))
      simp only [storeKeys, hkeys, List.mem_dedup]
      exact fun hu => hdisj hu (List.mem_cons_self u us)
    have hadd := addInvocation_added parse ok200 (some (joinNL done)) u u [.attempt u]
      hpu hmem (savePage_ok200 u)
    have hfile : (some (joinNL done) : Option String).getD "" ++ u ++ "\n" =
        joinNL (done ++ [u]) := by
      rw [joinNL_append]
      rfl
    simp only [runAdds, hadd, hfile]
    have hlist : (done ++ [u]) ++ us = done ++ u :: us := by
      rw [List.append_assoc, List.singleton_append]
    have hih := ih (done ++ [u]) (by rwa [hlist]) (by rw [hlist]; exact hprops)
      (fun v hv => hp v (List.mem_cons_of_mem u hv))
    rw [hih, hlist]

theorem listOutput_perm (file : Option String) :
    (listOutput file).Perm (storeKeys file) :=
  List.mergeSort_perm (storeKeys file) _

theorem listOutput_sorted (file : Option String) :
    List.Sorted (· ≤ ·) (listOutput file) := by
  have hp := @List.sorted_mergeSort String (fun a b => decide (a ≤ b))
    (fun a b c hab hbc =>
      decide_eq_true (le_trans (of_decide_eq_true hab) (of_decide_eq_true hbc)))
    (fun a b => by
      rcases le_total a b with h | h
      · simp [h]
      · simp [h])
    (storeKeys file)
  exact hp.imp (fun h => of_decide_eq_true h)

/-! ## Claims -/

/-- C1 counterexample: a world in which every attempt returns a bare
status 500 makes `savePage` return success after a single attempt; no
retry is consumed and the fatal exit is not taken, contradicting the
claim that a 500 is treated as a retryable error ending in
"max retries exceeded". -/
theorem c1_counterexample :
    savePage (fun _ => .resp ⟨500, "", none⟩) "http://example.com/" =
      (SaveResult.success, [Event.attempt "http://example.com/"]) ∧
    (savePage (fun _ => .resp ⟨500, "", none⟩) "http://example.com/").1 ≠
      SaveResult.fatal "max retries exceeded" :=
  ⟨rfl, by decide⟩

/-- C1 (amended): the guard `statusCode/500 == 5` holds exactly for
statuses 2500 through 2999, never for 500; a fetch whose response has
status exactly 500 leaves the loop on its first iteration and `savePage`
returns success to the caller, with no retry and no fatal exit. -/
theorem c1_theorem :
    (∀ s : Nat, is5xxBranch s = true ↔ 2500 ≤ s ∧ s ≤ 2999) ∧
    ∀ (responses : Nat → Attempt) (u ra : String) (loc : Option String),
      responses 0 = .resp ⟨500, ra, loc⟩ →
      savePage responses u = (SaveResult.success, [Event.attempt u]) := by
  constructor
  · intro s
    simp only [is5xxBranch, beq_iff_eq]
    omega
  · intro responses u ra loc h
    rw [savePage_eq, h, savePageStep_plain 0 u ⟨500, ra, loc⟩ (by simp) (by simp)
      (by simp) (by simp) (by simp [is5xxBranch])]

/-- C1 witness: the amended statement at a concrete 500 world. -/
theorem c1_witness :
    savePage (fun _ => Attempt.resp ⟨500, "hdr", some "http://l.example/"⟩) "http://w1.example/" =
      (SaveResult.success, [Event.attempt "http://w1.example/"]) :=
  c1_theorem.2 (fun _ => Attempt.resp ⟨500, "hdr", some "http://l.example/"⟩)
    "http://w1.example/" "hdr" (some "http://l.example/") rfl

/-- C2 counterexample: with every attempt answering 429 and
`Retry-After: 1`, the run makes exactly 3 HTTP attempts in total (not 4)
and, once the third backoff exhausts the budget, `savePage` returns
success instead of terminating fatally. -/
theorem c2_counterexample :
    savePage (fun _ => .resp ⟨429, "1", none⟩) "http://example.org/" =
      (SaveResult.success,
        [Event.attempt "http://example.org/", Event.sleepUntil 61,
         Event.attempt "http://example.org/", Event.sleepUntil 61,
         Event.attempt "http://example.org/", Event.sleepUntil 61]) ∧
    attemptsOf (savePage (fun _ => .resp ⟨429, "1", none⟩) "http://example.org/").2 = 3 ∧
    (savePage (fun _ => .resp ⟨429, "1", none⟩) "http://example.org/").1 ≠
      SaveResult.fatal "max retries exceeded" :=
  ⟨rfl, rfl, by decide⟩

/-- C2 (amended): the loop `for retry < maxRetry` with `maxRetry = 3`
admits at most 3 HTTP attempts in total (the initial attempt plus at most
2 retries); `savePage` can never terminate the process fatally; and when
the budget is exhausted the loop exits returning success to the caller. -/
theorem c2_theorem :
    ∀ (responses : Nat → Attempt) (u : String),
      attemptsOf (savePage responses u).2 ≤ 3 ∧
      (∀ msg, (savePage responses u).1 ≠ SaveResult.fatal msg) ∧
      (∀ (fuel retry idx : Nat) (u2 : String) (evs : List Event),
        maxRetry ≤ retry →
        savePageAux responses fuel retry idx u2 evs = (SaveResult.success, evs)) := by
  intro responses u
  refine ⟨?_, ?_, ?_⟩
  · have h := savePageAux_attempts responses maxRetry 0 0 u []
    show attemptsOf (savePageAux responses maxRetry 0 0 u []).2 ≤ 3
    simpa [maxRetry, attemptsOf] using h
  · intro msg
    exact savePageAux_ne_fatal responses maxRetry 0 0 u [] msg
  · intro fuel retry idx u2 evs hge
    cases fuel with
    | zero => rfl
    | succ fuel => rw [savePageAux_succ, if_neg (by omega)]

/-- C2 witness: the attempt bound and the exhausted-budget exit at
concrete inputs. -/
theorem c2_witness :
    attemptsOf (savePage ok200 "http://w2.example/").2 ≤ 3 ∧
    savePageAux ok200 2 3 0 "http://w2.example/" [] = (SaveResult.success, []) :=
  ⟨(c2_theorem ok200 "http://w2.example/").1,
   (c2_theorem ok200 "http://w2.example/").2.2 2 3 0 "http://w2.example/" [] (by decide)⟩

/-- C3: for every status in the valid HTTP range 100..599 the guard
`statusCode/500 == 5` is false, and consequently `savePage` behaves
identically to the program with the whole 5xx block (its retry increment
and its fatal exit included) deleted, on any world whose responses carry
such statuses. -/
theorem c3_theorem :
    (∀ s : Nat, 100 ≤ s → s ≤ 599 → is5xxBranch s = false) ∧
    ∀ (responses : Nat → Attempt) (u : String),
      (∀ i r, responses i = .resp r → 100 ≤ r.statusCode ∧ r.statusCode ≤ 599) →
      savePage responses u = savePageNo5xx responses u := by
  constructor
  · intro s h1 h2
    simp only [is5xxBranch, beq_eq_false_iff_ne, ne_eq]
    omega
  · intro responses u hreal
    exact savePageAux_eq_no5xx responses hreal maxRetry 0 0 u []

/-- C3 witness: the guard and the dead-code equivalence at a concrete
500-only world. -/
theorem c3_witness :
    is5xxBranch 500 = false ∧
    savePage (fun _ => Attempt.resp ⟨500, "", none⟩) "http://w3.example/" =
      savePageNo5xx (fun _ => Attempt.resp ⟨500, "", none⟩) "http://w3.example/" :=
  ⟨c3_theorem.1 500 (by decide) (by decide),
   c3_theorem.2 (fun _ => Attempt.resp ⟨500, "", none⟩) "http://w3.example/"
     (fun i r h => by
       injection h with h2
       rw [← h2]
       exact ⟨by decide, by decide⟩)⟩

/-- C4 counterexample: a first response with status 301 and a resolvable
`Location` makes `savePage` return success after that single attempt: no
request to the redirect target `http://new.example/` ever happens, so the
loop does not continue with the new URL as claimed. -/
theorem c4_counterexample :
    savePage (fun i => if i = 0 then .resp ⟨301, "", some "http://new.example/"⟩
        else .resp ⟨200, "", none⟩) "http://old.example/" =
      (SaveResult.success, [Event.attempt "http://old.example/"]) ∧
    Event.attempt "http://new.example/" ∉
      (savePage (fun i => if i = 0 then .resp ⟨301, "", some "http://new.example/"⟩
        else .resp ⟨200, "", none⟩) "http://old.example/").2 :=
  ⟨rfl, by decide⟩

/-- C4 (amended): on a 3xx response `savePage` resolves the `Location`
header into the loop's URL variable but then immediately breaks out of
the loop and returns success — it performs exactly one attempt, at the
original URL, consuming no retry; if the header cannot be resolved it
returns the "resolving redirect" error. -/
theorem c4_theorem :
    ∀ (responses : Nat → Attempt) (u : String) (r : Response),
      responses 0 = .resp r → r.statusCode / 100 = 3 →
      ((∀ nurl, r.location = some nurl →
          savePage responses u = (SaveResult.success, [Event.attempt u])) ∧
       (r.location = none →
          savePage responses u =
            (SaveResult.error ("resolving redirect: " ++ u), [Event.attempt u]))) := by
  intro responses u r h0 h3
  constructor
  · intro nurl hl
    rw [savePage_eq, h0, savePageStep_redirect 0 u r h3 nurl hl]
  · intro hl
    rw [savePage_eq, h0, savePageStep_redirect_err 0 u r h3 hl]

/-- C4 witness: the amended statement at a concrete 302 response. -/
theorem c4_witness :
    savePage (fun _ => Attempt.resp ⟨302, "", some "http://t.example/"⟩) "http://w4.example/" =
      (SaveResult.success, [Event.attempt "http://w4.example/"]) :=
  (c4_theorem (fun _ => Attempt.resp ⟨302, "", some "http://t.example/"⟩) "http://w4.example/"
      ⟨302, "", some "http://t.example/"⟩ rfl (by decide)).1 "http://t.example/" rfl

/-- C5: on a 429 or 503 response whose `Retry-After` header parses to a
positive `n`, the iteration records a sleep ending at Unix time `n + 60`
(the timestamp plus one minute) and the loop continues with the retry
count advanced from 0 to 1 at the same URL; if the header value does not
parse to a positive integer this branch does not retry, and falling
through the redirect and 5xx checks ends the loop with success after the
single attempt. -/
theorem c5_theorem :
    ∀ (responses : Nat → Attempt) (u : String) (r : Response),
      responses 0 = .resp r → (r.statusCode = 429 ∨ r.statusCode = 503) →
      ((0 < goAtoi r.retryAfter →
          savePage responses u =
            savePageAux responses 2 1 1 u
              [Event.attempt u, Event.sleepUntil (goAtoi r.retryAfter + 60)]) ∧
       (goAtoi r.retryAfter ≤ 0 →
          savePage responses u = (SaveResult.success, [Event.attempt u]))) := by
  intro responses u r h0 hs
  constructor
  · intro hn
    rw [savePage_eq, h0, savePageStep_backoff 0 u r hs hn]
  · intro hn
    rw [savePage_eq, h0, savePageStep_backoff_noheader 0 u r hs hn]

/-- C5 witness: the backoff branch at a concrete 429 response with
`Retry-After: 1`. -/
theorem c5_witness :
    savePage (fun _ => Attempt.resp ⟨429, "1", none⟩) "http://w5.example/" =
      savePageAux (fun _ => Attempt.resp ⟨429, "1", none⟩) 2 1 1 "http://w5.example/"
        [Event.attempt "http://w5.example/", Event.sleepUntil (goAtoi "1" + 60)] :=
  (c5_theorem (fun _ => Attempt.resp ⟨429, "1", none⟩) "http://w5.example/" ⟨429, "1", none⟩
      rfl (Or.inl rfl)).1 (by decide)

/-- C6 counterexample: zero positional arguments with no flag is not a
usage error — `main` falls through to add mode on `flag.Arg(0)`, which is
the empty string. -/
theorem c6_counterexample :
    mainDispatch false [] = Mode.addMode "" ∧ mainDispatch false [] ≠ Mode.usageExit2 := by
  decide

/-- C6 (amended): with `-list`, any positional argument is a usage error
(exit 2) and none means list mode; without the flag, two or more
positional arguments are a usage error, while zero or one proceed to add
mode on `flag.Arg(0)` — the empty string when no argument was given. -/
theorem c6_theorem :
    (∀ args : List String,
        mainDispatch true args = if args.length > 0 then Mode.usageExit2 else Mode.listMode) ∧
    (∀ args : List String,
        mainDispatch false args =
          if args.length > 1 then Mode.usageExit2 else Mode.addMode (args.headD "")) :=
  ⟨fun _ => rfl, fun _ => rfl⟩

/-- C7: a 404 response makes `savePage` return the "resource not found"
error from its first iteration — one attempt, no retry — and the `add`
invocation then dies in `log.Fatal` before the backing file is opened, so
the file is unchanged whatever the parse and store state were. -/
theorem c7_theorem :
    ∀ (responses : Nat → Attempt) (u : String) (r : Response)
      (parse : String → Option String) (file : Option String),
      responses 0 = .resp r → r.statusCode = 404 →
      savePage responses u =
        (SaveResult.error ("resource not found: " ++ u), [Event.attempt u]) ∧
      (addInvocation parse responses file u).2.1 = file := by
  intro responses u r parse file h0 h404
  have hsv : ∀ v : String, savePage responses v =
      (SaveResult.error ("resource not found: " ++ v), [Event.attempt v]) := by
    intro v
    rw [savePage_eq, h0, savePageStep_404 0 v r h404]
  refine ⟨hsv u, ?_⟩
  unfold addInvocation
  cases hp : parse u with
  | none => rfl
  | some norm =>
    by_cases hm : norm ∈ storeKeys file
    · simp [hm]
    · simp [hm, hsv norm]

/-- C7 witness: the 404 behaviour at concrete inputs, with a non-empty
backing file left untouched. -/
theorem c7_witness :
    savePage (fun _ => Attempt.resp ⟨404, "", none⟩) "http://w7.example/" =
      (SaveResult.error ("resource not found: " ++ "http://w7.example/"),
        [Event.attempt "http://w7.example/"]) ∧
    (addInvocation (fun s => some s) (fun _ => Attempt.resp ⟨404, "", none⟩)
        (some "http://a.example/\n") "http://w7.example/").2.1 = some "http://a.example/\n" :=
  c7_theorem (fun _ => Attempt.resp ⟨404, "", none⟩) "http://w7.example/" ⟨404, "", none⟩
    (fun s => some s) (some "http://a.example/\n") rfl rfl

/-- C8: when the normalized URL is already a key of the loaded store,
`add` dies with the "duplicate" fatal error; the result holds for every
response world and records no fetch event, and the backing file is
returned unchanged — the failure happens before the fetch and before the
file is opened. -/
theorem c8_theorem :
    ∀ (parse : String → Option String) (responses : Nat → Attempt)
      (file : Option String) (u norm : String),
      parse u = some norm → norm ∈ storeKeys file →
      addInvocation parse responses file u = (AddResult.fatalDup norm, file, []) := by
  intro parse responses file u norm hp hm
  simp [addInvocation, hp, hm]

/-- C8 witness: adding a URL already in the backing file. -/
theorem c8_witness :
    addInvocation (fun s => some s) ok200 (some "http://a.example/\n") "http://a.example/" =
      (AddResult.fatalDup "http://a.example/", some "http://a.example/\n", []) :=
  c8_theorem (fun s => some s) ok200 (some "http://a.example/\n") "http://a.example/"
    "http://a.example/" rfl (by decide)

/-- C9: starting from a missing backing file, adding N distinct
normalized URLs (non-empty, newline-free, each its own normal form)
across N invocations succeeds, and a fresh load of the resulting file
followed by `list` prints exactly those N URLs: a permutation of them,
sorted ascending, with no duplicates. -/
theorem c9_theorem :
    ∀ (urls : List String) (parse : String → Option String),
      urls.Nodup →
      (∀ u ∈ urls, u ≠ "" ∧ '\n' ∉ u.data) →
      (∀ u ∈ urls, parse u = some u) →
      ∃ F : Option String,
        runAdds parse ok200 none urls = some F ∧
        (listOutput F).Perm urls ∧
        List.Sorted (· ≤ ·) (listOutput F) ∧
        (listOutput F).Nodup := by
  intro urls parse hnd hprops hp
  cases urls with
  | nil =>
    refine ⟨none, rfl, ?_, listOutput_sorted none, ?_⟩
    · simp [listOutput, storeKeys]
    · simp [listOutput, storeKeys]
  | cons u us =>
    have hpu : parse u = some u := hp u (by simp)
    have hmem : u ∉ storeKeys none := by simp [storeKeys]
    have hadd := addInvocation_added parse ok200 none u u [.attempt u] hpu hmem
      (savePage_ok200 u)
    have hrest := runAdds_ok parse us [u] hnd hprops
      (fun v hv => hp v (List.mem_cons_of_mem u hv))
    refine ⟨some (joinNL (u :: us)), ?_, ?_, listOutput_sorted _, ?_⟩
    · simp only [runAdds, hadd]
      rw [show ((none : Option String).getD "") ++ u ++ "\n" = joinNL [u] from by
        apply String.ext; simp [joinNL]]
      exact hrest
    · have hkeys : storeKeys (some (joinNL (u :: us))) = u :: us := by
        simp only [storeKeys]
        rw [lineKeys_joinNL (u :: us) hprops]
        exact List.dedup_eq_self.mpr hnd
      have hperm := listOutput_perm (some (joinNL (u :: us)))
      rwa [hkeys] at hperm
    · have hkeys : storeKeys (some (joinNL (u :: us))) = u :: us := by
        simp only [storeKeys]
        rw [lineKeys_joinNL (u :: us) hprops]
        exact List.dedup_eq_self.mpr hnd
      have hperm := listOutput_perm (some (joinNL (u :: us)))
      rw [hkeys] at hperm
      exact hperm.nodup_iff.mpr hnd

/-- C9 witness: two URLs added in reverse-alphabetical order. -/
theorem c9_witness :
    ∃ F : Option String,
      runAdds (fun s => some s) ok200 none ["http://b.example/", "http://a.example/"] =
        some F ∧
      (listOutput F).Perm ["http://b.example/", "http://a.example/"] ∧
      List.Sorted (· ≤ ·) (listOutput F) ∧
      (listOutput F).Nodup :=
  c9_theorem ["http://b.example/", "http://a.example/"] (fun s => some s)
    (by decide) (by decide) (fun u hu => rfl)

/-- C10: a missing backing file loads as the empty store and lists as no
output; and for an existing file the key set of the loaded store is
exactly the set of non-empty newline-delimited lines of the file. -/
theorem c10_theorem :
    storeKeys none = [] ∧ listOutput none = [] ∧
    ∀ (d s : String), s ∈ storeKeys (some d) ↔ s ∈ specLines d := by
  refine ⟨rfl, by simp [listOutput, storeKeys], ?_⟩
  intro d s
  simp [storeKeys, List.mem_dedup, lineKeys_eq_specLines]
